import Mathlib

/-!
Verification of the timetable converter (`plan.py`): a shallow embedding of
the grid parser (`normalize_time`, `escape_sql`, `find_weekday_columns`,
`parse_excel_to_plan`) and the SQL emitter (`write_sql`), together with
theorems settling the specified properties.

Modelling conventions:
* Python strings are `String` (lists of Unicode code points).
* The regex character class `\s`, `str.strip`, `str.lower`, `str.capitalize`
  are modelled on the ASCII whitespace set and on the ASCII + Polish letters
  actually used by the program (the fixed `WEEKDAYS` vocabulary); this is a
  faithful restriction of Python's Unicode behaviour to the program's data.
* `pd.ExcelFile(path)` (which may raise) is modelled by an
  `Except String (List Sheet)` argument; a per-sheet `xls.parse` failure is
  modelled by each sheet's grid being an `Except String` value.
* Python `dict` keyed by ascending column indices is an association list in
  insertion (= index) order.
-/

/-- Python `\s` / `str.strip()` whitespace, restricted to ASCII. -/
def pyIsSpace (c : Char) : Bool :=
  c = ' ' || c = '\t' || c = '\n' || c = '\r' || c = '\x0b' || c = '\x0c'

/-- `str.lower` on one character, for ASCII letters and the Polish letters
occurring in `WEEKDAYS`. -/
def pyLower (c : Char) : Char :=
  if c = 'Ą' then 'ą' else if c = 'Ć' then 'ć' else if c = 'Ę' then 'ę'
  else if c = 'Ł' then 'ł' else if c = 'Ń' then 'ń' else if c = 'Ó' then 'ó'
  else if c = 'Ś' then 'ś' else if c = 'Ź' then 'ź' else if c = 'Ż' then 'ż'
  else c.toLower

/-- `str.upper` on one character, same alphabet as `pyLower`. -/
def pyUpper (c : Char) : Char :=
  if c = 'ą' then 'Ą' else if c = 'ć' then 'Ć' else if c = 'ę' then 'Ę'
  else if c = 'ł' then 'Ł' else if c = 'ń' then 'Ń' else if c = 'ó' then 'Ó'
  else if c = 'ś' then 'Ś' else if c = 'ź' then 'Ź' else if c = 'ż' then 'Ż'
  else c.toUpper

/-- Leading+trailing whitespace removal on a character list (Python `strip`). -/
def trimWs (l : List Char) : List Char :=
  ((l.dropWhile pyIsSpace).reverse.dropWhile pyIsSpace).reverse

/-- Python `str.strip()`. -/
def pyStrip (s : String) : String := ⟨trimWs s.data⟩

/-- Python `str.lower()`. -/
def pyLowerStr (s : String) : String := ⟨s.data.map pyLower⟩

/-- Python `str.capitalize()`: first character uppercased, rest lowercased. -/
def pyCapitalize (s : String) : String :=
  match s.data with
  | [] => ""
  | c :: rest => ⟨pyUpper c :: rest.map pyLower⟩

/-- Digit value of a decimal digit character. -/
def digitVal (c : Char) : Nat := c.toNat - '0'.toNat

/-- The regex class `\d`, restricted to ASCII (code points 48–57). -/
def pyIsDigit (c : Char) : Bool := 48 ≤ c.toNat && c.toNat ≤ 57

/-- The anchored pattern `^(\d{1,2}):(\d{2})$` of `normalize_time`, applied to
an (already stripped) character list.  Returns the numeric hour
(`int(m.group(1))`) and the minute text (`m.group(2)`, kept verbatim). -/
def timePat (l : List Char) : Option (Nat × String) :=
  match l with
  | [a, ':', m1, m2] =>
    if pyIsDigit a && pyIsDigit m1 && pyIsDigit m2 then
      some (digitVal a, ⟨[m1, m2]⟩)
    else none
  | [a, b, ':', m1, m2] =>
    if pyIsDigit a && pyIsDigit b && pyIsDigit m1 && pyIsDigit m2 then
      some (10 * digitVal a + digitVal b, ⟨[m1, m2]⟩)
    else none
  | _ => none

/-- Python `f"{n:02d}"`: decimal text of `n`, left-padded with `0` to width 2. -/
def pad2 (n : Nat) : String :=
  let s := toString n
  if s.length < 2 then "0" ++ s else s

/-- `normalize_time` from `plan.py`: `None` for the empty string, otherwise
strip and match `^(\d{1,2}):(\d{2})$`; on success produce
`f"{int(g1):02d}:{g2}:00"`. -/
def normalize_time (t : String) : Option String :=
  if t = "" then none
  else
    match timePat (trimWs t.data) with
    | none => none
    | some (h, mm) => some (pad2 h ++ ":" ++ mm ++ ":00")

/-- Head of a character list is whitespace (`false` on the empty list). -/
def headSpace : List Char → Bool
  | [] => false
  | c :: _ => pyIsSpace c

/-- `re.sub(r"\s+", " ", ·)`: every maximal whitespace run becomes exactly one
space.  Folding from the right: a whitespace character whose collapsed tail
already starts with the space produced for the rest of its run adds nothing;
the last whitespace character of a run produces the single space. -/
def collapseWs : List Char → List Char
  | [] => []
  | c :: rest =>
    let r := collapseWs rest
    if pyIsSpace c then (if headSpace r then r else ' ' :: r)
    else c :: r

/-- `·.replace("'", "''")`: double every single quote. -/
def doubleQuotes : List Char → List Char
  | [] => []
  | c :: rest =>
    if c = '\'' then '\'' :: '\'' :: doubleQuotes rest
    else c :: doubleQuotes rest

/-- `escape_sql` from `plan.py` on a string argument:
replace `\n` and `\r` by spaces, strip, collapse whitespace runs to a single
space, double single quotes.  (The `None ↦ ""` branch of the Python function
is irrelevant here: all call sites pass strings.) -/
def escape_sql (s : String) : String :=
  let s1 := s.data.map (fun c => if c = '\n' || c = '\r' then ' ' else c)
  let s2 := trimWs s1
  let s3 := collapseWs s2
  ⟨doubleQuotes s3⟩

/-- `WEEKDAYS` from `plan.py`. -/
def WEEKDAYS : List String := ["poniedziałek", "wtorek", "środa", "czwartek", "piątek"]

/-- Character-list version of Python `str.startswith`. -/
def chars_begin : List Char → List Char → Bool
  | [], _ => true
  | _ :: _, [] => false
  | a :: p, b :: l => if a = b then chars_begin p l else false

/-- Python `s.startswith(pre)` modelled on code-point lists. -/
def str_begins (pre s : String) : Bool := chars_begin pre.data s.data

/-- The inner loop of `find_weekday_columns` for one cleaned cell: first
weekday equal to the cell or whose 3-character prefix starts the cell, then
capitalized; `none` if no weekday matches. -/
def matchWeekday (cell_clean : String) : Option String :=
  WEEKDAYS.findSome? (fun wd =>
    if wd = cell_clean || str_begins ⟨wd.data.take 3⟩ cell_clean then
      some (pyCapitalize wd)
    else none)

/-- One iteration of `find_weekday_columns`'s loop: skip an empty cell, clean
the cell with `strip().lower()`, record `(index, capitalized weekday)` if a
weekday is recognized. -/
def fwc_step (p : Nat × String) : Option (Nat × String) :=
  if p.2 = "" then none
  else (matchWeekday (pyLowerStr (pyStrip p.2))).map (fun w => (p.1, w))

/-- The mapping built by `find_weekday_columns`'s loop (before the size 3
threshold). -/
def find_weekday_raw (row_values : List String) : List (Nat × String) :=
  row_values.enum.filterMap fwc_step

/-- `find_weekday_columns` from `plan.py`: the built mapping when it has at
least 3 entries, the empty mapping otherwise. -/
def find_weekday_columns (row_values : List String) : List (Nat × String) :=
  let mapping := find_weekday_raw row_values
  if 3 ≤ mapping.length then mapping else []

/-- Dash characters accepted by both regexes: hyphen or en-dash. -/
def isDash (c : Char) : Bool := c = '-' || c = '–'

/-- One `\d{1,2}\.` step of the date part of `HEADER_CLASS_RE`: succeeds iff
the leading digit run has length 1 or 2 and is followed by a dot (a run of 3
or more digits cannot match, since after backtracking the dot would have to
match a digit).  Returns the rest after the dot. -/
def matchDayMonth (l : List Char) : Option (List Char) :=
  let ds := l.takeWhile pyIsDigit
  if ds.length = 0 || 3 ≤ ds.length then none
  else
    match l.drop ds.length with
    | '.' :: r => some r
    | _ => none

/-- `HEADER_CLASS_RE.match(cell)` for
`^\s*([^\s–-]+)\s*[-–]\s*\d{1,2}\.\d{1,2}\.\d{2,4}`, returning group 1 (the
class token).  The trailing `\d{2,4}` is unanchored, so it succeeds iff at
least 2 digits follow the second dot. -/
def HEADER_CLASS_match (s : String) : Option String :=
  let l := s.data.dropWhile pyIsSpace
  let tok := l.takeWhile (fun c => !(pyIsSpace c) && !(isDash c))
  if tok.isEmpty then none
  else
    match (l.drop tok.length).dropWhile pyIsSpace with
    | d :: r2 =>
      if isDash d then
        match matchDayMonth (r2.dropWhile pyIsSpace) with
        | some r4 =>
          match matchDayMonth r4 with
          | some r5 =>
            if 2 ≤ (r5.takeWhile pyIsDigit).length then some ⟨tok⟩ else none
          | none => none
        | none => none
      else none
    | [] => none

/-- Match `\d{1,2}:\d{2}` at the head of the list.  The regex engine is
deterministic here: with two leading digits the colon must follow them (the
one-digit alternative would need the second digit to be a colon), with one it
must follow it.  Returns the matched characters and the rest. -/
def matchHM : List Char → Option (List Char × List Char)
  | c1 :: c2 :: c3 :: rest =>
    if pyIsDigit c1 then
      if pyIsDigit c2 then
        if c3 = ':' then
          match rest with
          | m1 :: m2 :: r =>
            if pyIsDigit m1 && pyIsDigit m2 then some ([c1, c2, c3, m1, m2], r) else none
          | _ => none
        else none
      else if c2 = ':' then
        match rest with
        | m2 :: r =>
          if pyIsDigit c3 && pyIsDigit m2 then some ([c1, c2, c3, m2], r) else none
        | [] => none
      else none
    else none
  | _ => none

/-- Attempt `TIME_RE` = `(\d{1,2}:\d{2})\s*[-–]\s*(\d{1,2}:\d{2})` anchored at
the head of `l`; returns `(group 0, group 1, group 2)`. -/
def matchTimeRange (l : List Char) : Option (String × String × String) :=
  match matchHM l with
  | some (g1, r1) =>
    match r1.dropWhile pyIsSpace with
    | d :: r3 =>
      if isDash d then
        match matchHM (r3.dropWhile pyIsSpace) with
        | some (g2, r5) => some (⟨l.take (l.length - r5.length)⟩, ⟨g1⟩, ⟨g2⟩)
        | none => none
      else none
    | [] => none
  | none => none

/-- `TIME_RE.search`: first position (left to right) where `matchTimeRange`
succeeds. -/
def TIME_search_list : List Char → Option (String × String × String)
  | [] => none
  | c :: rest =>
    match matchTimeRange (c :: rest) with
    | some g => some g
    | none => TIME_search_list rest

/-- `TIME_RE.search(cell)` on a string. -/
def TIME_search (s : String) : Option (String × String × String) :=
  TIME_search_list s.data

/-- One parsed schedule record, the dict
`{klasa, dzien, start, end, przedmiot, sheet, row, col}` built in
`parse_excel_to_plan` (`end_` models the dict key `"end"`). -/
structure Entry where
  klasa : String
  dzien : String
  start : String
  end_ : String
  przedmiot : String
  sheet : String
  row : Nat
  col : Nat
deriving Repr, DecidableEq

/-- Parser state during one run: the per-sheet variables `current_class` and
`weekday_cols` plus the run-wide accumulators `plan` and `errors`. -/
structure PState where
  current_class : Option String
  weekday_cols : List (Nat × String)
  plan : List Entry
  errors : List String
deriving Repr, DecidableEq

/-- The entry-building loop over `weekday_cols.items()` for one time row:
skip column indices beyond the row, skip empty (stripped) subject cells,
otherwise build the record. -/
def rowEntries (cls start end_ sheetname : String) (i : Nat)
    (row : List String) (wcols : List (Nat × String)) : List Entry :=
  wcols.filterMap (fun p =>
    if row.length ≤ p.1 then none
    else
      let subj := pyStrip (row.getD p.1 "")
      if subj = "" then none
      else some { klasa := cls, dzien := p.2, start := start, end_ := end_,
                  przedmiot := escape_sql subj, sheet := sheetname,
                  row := i + 1, col := p.1 + 1 })

/-- The `UNKNOWN` substitution of step 3: when a time range was found but no
class header has been seen, set `current_class` to `"UNKNOWN"` and record the
warning. -/
def unknownClass (sheetname : String) (i : Nat) (st1 : PState) : PState :=
  match st1.current_class with
  | some _ => st1
  | none =>
    { st1 with current_class := some "UNKNOWN",
               errors := st1.errors ++
                 ["[" ++ sheetname ++ "] Wiersz " ++ toString (i + 1) ++
                  ": godziny znalezione, ale brak klasy → ustawiono UNKNOWN"] }

/-- The rest of step 3 after the class fallback: require a weekday mapping
(warning and skip otherwise), normalize both matched times (warning with the
raw matched text and skip on failure), else append the row's entries using
the current class. -/
def timeRowEntries (sheetname : String) (i : Nat) (row : List String)
    (g0 g1 g2 : String) (st2 : PState) : PState :=
  if st2.weekday_cols.isEmpty then
    { st2 with errors := st2.errors ++
        ["[" ++ sheetname ++ "] Wiersz " ++ toString (i + 1) ++
         ": godziny znalezione, ale brak dni tygodnia"] }
  else
    match normalize_time g1, normalize_time g2 with
    | some start, some end_ =>
      { st2 with plan := st2.plan ++ rowEntries (st2.current_class.getD "UNKNOWN") start end_ sheetname i row st2.weekday_cols }
    | _, _ =>
      { st2 with errors := st2.errors ++
          ["[" ++ sheetname ++ "] Wiersz " ++ toString (i + 1) ++
           ": zły format godziny '" ++ g0 ++ "'"] }

/-- Step 3 of the per-row scan: find the first cell with a time range; on a
hit substitute `UNKNOWN` for a missing class and process the time row. -/
def processTime (sheetname : String) (i : Nat) (row : List String) (st1 : PState) : PState :=
  match row.findSome? TIME_search with
  | none => st1
  | some (g0, g1, g2) =>
    timeRowEntries sheetname i row g0 g1 g2 (unknownClass sheetname i st1)

/-- One row of the per-sheet scan: (1) first cell matching the class-header
regex sets `current_class` and clears `weekday_cols`; (2) if no weekday
mapping is active and the row qualifies, it becomes the mapping and the row
is consumed; (3) otherwise time-row processing. -/
def processRow (sheetname : String) (i : Nat) (row : List String) (st : PState) : PState :=
  let st1 :=
    match row.findSome? HEADER_CLASS_match with
    | some cls => { st with current_class := some cls, weekday_cols := [] }
    | none => st
  if st1.weekday_cols.isEmpty then
    let cand := find_weekday_columns row
    if !cand.isEmpty then { st1 with weekday_cols := cand }
    else processTime sheetname i row st1
  else processTime sheetname i row st1

/-- `for i in range(len(df))`: scan the rows of one sheet from row index `i`. -/
def processRowsFrom (sheetname : String) : Nat → List (List String) → PState → PState
  | _, [], st => st
  | i, row :: rest, st => processRowsFrom sheetname (i + 1) rest (processRow sheetname i row st)

/-- One sheet: an unreadable sheet only appends its warning; a readable one
is scanned with fresh `current_class`/`weekday_cols`, carrying the run-wide
`plan` and `errors` accumulators. -/
def processSheet (acc : List Entry × List String)
    (sh : String × Except String (List (List String))) : List Entry × List String :=
  match sh.2 with
  | .error e => (acc.1, acc.2 ++ ["Nie można przeczytać arkusza '" ++ sh.1 ++ "': " ++ e])
  | .ok grid =>
    let st := processRowsFrom sh.1 0 grid
      { current_class := none, weekday_cols := [], plan := acc.1, errors := acc.2 }
    (st.plan, st.errors)

/-- `parse_excel_to_plan` from `plan.py`.  The argument is the outcome of
`pd.ExcelFile(path)`: on failure the function catches the exception, appends
`"Błąd otwarcia pliku: <message>"` to `errors` and returns normally with the
(empty) plan; on success it scans every sheet. -/
def parse_excel_to_plan (xls : Except String (List (String × Except String (List (List String)))))
    : List Entry × List String :=
  match xls with
  | .error e => ([], ["Błąd otwarcia pliku: " ++ e])
  | .ok sheets => sheets.foldl processSheet ([], [])

/-- The lines of the `CREATE TABLE` statement written by `write_sql`
(followed by the blank line from `");\n\n"`). -/
def create_stmt_lines : List String :=
  ["CREATE TABLE IF NOT EXISTS plan (",
   "  id INT AUTO_INCREMENT PRIMARY KEY,",
   "  klasa VARCHAR(50),",
   "  dzien VARCHAR(20),",
   "  godzina_start TIME,",
   "  godzina_koniec TIME,",
   "  przedmiot VARCHAR(500),",
   "  sheet VARCHAR(100),",
   "  sheet_row INT,",
   "  sheet_col INT",
   ");",
   ""]

/-- The `INSERT` statement `write_sql` writes for record `r` with counter
value `i`. -/
def insert_stmt (i : Nat) (r : Entry) : String :=
  "INSERT INTO plan (id, klasa, dzien, godzina_start, godzina_koniec, przedmiot, sheet, sheet_row, sheet_col) VALUES (" ++
  toString i ++ ", '" ++ escape_sql r.klasa ++ "', '" ++ escape_sql r.dzien ++ "', '" ++
  r.start ++ "', '" ++ r.end_ ++ "', '" ++ r.przedmiot ++ "', '" ++ escape_sql r.sheet ++
  "', " ++ toString r.row ++ ", " ++ toString r.col ++ ");"

/-- `for i, r in enumerate(plan, start=1)`: the insert statements in order. -/
def insert_stmts (plan : List Entry) : List String :=
  plan.enum.map (fun p => insert_stmt (p.1 + 1) p.2)

/-- The lines of the file `write_sql` writes (the generation timestamp
`datetime.now().isoformat()` is passed in as `timestamp`). -/
def write_sql_lines (plan : List Entry) (timestamp : String) : List String :=
  ("-- Wygenerowano: " ++ timestamp) :: create_stmt_lines ++ insert_stmts plan

/-- The full text written by `write_sql`. -/
def write_sql (plan : List Entry) (timestamp : String) : String :=
  String.intercalate "\n" (write_sql_lines plan timestamp) ++ "\n"

/-- The column names of the emitted `CREATE TABLE` statement: first word of
each trimmed column line. -/
def create_columns : List String :=
  ((create_stmt_lines.drop 1).takeWhile (fun l => l ≠ ");")).map
    (fun l => ⟨(pyStrip l).data.takeWhile (fun c => !(pyIsSpace c))⟩)

/-- Whether a character list contains two consecutive whitespace characters
(`false` iff it does not). -/
def noTwoWs : List Char → Bool
  | [] => true
  | [_] => true
  | a :: b :: t => (!(pyIsSpace a && pyIsSpace b)) && noTwoWs (b :: t)

/-- Every single-quote character occurs as part of an adjacent pair `''`. -/
def quotesOk : List Char → Bool
  | [] => true
  | c :: rest =>
    if c = '\'' then
      match rest with
      | c2 :: rest2 => if c2 = '\'' then quotesOk rest2 else false
      | [] => false
    else quotesOk rest

/-- Specification-side recognizer for one weekday-header cell: the weekday
recorded for the cell by the parser, if any. -/
def recognizes (cell : String) : Option String :=
  if cell = "" then none else matchWeekday (pyLowerStr (pyStrip cell))

/-- Number of cells of a row recognized as weekdays. -/
def recognizedCount (row : List String) : Nat :=
  row.countP (fun c => (recognizes c).isSome)

/-- A sample schedule record (used to instantiate universally quantified
emitter theorems). -/
def entry0 : Entry :=
  { klasa := "1AT", dzien := "Poniedziałek", start := "07:10:00", end_ := "07:55:00",
    przedmiot := "Math", sheet := "S", row := 3, col := 2 }

/-- A second sample schedule record. -/
def entry1 : Entry :=
  { klasa := "2bt", dzien := "Wtorek", start := "08:00:00", end_ := "08:45:00",
    przedmiot := "Physics", sheet := "S", row := 3, col := 3 }

/-! ## Helper lemmas -/

theorem str_data_append (a b : String) : (a ++ b).data = a.data ++ b.data := rfl

theorem chars_begin_of_le : ∀ (p l r : List Char), p.length ≤ l.length →
    chars_begin p (l ++ r) = chars_begin p l
  | [], _, _, _ => rfl
  | a :: p, [], r, h => by simp at h
  | a :: p, b :: l, r, h => by
    simp only [List.cons_append, chars_begin]
    split
    · exact chars_begin_of_le p l r (by simpa using h)
    · rfl

theorem chars_begin_append_true (p l r : List Char) (h : chars_begin p l = true) :
    chars_begin p (l ++ r) = true := by
  have hle : p.length ≤ l.length := by
    induction p generalizing l with
    | nil => simp
    | cons a p ih =>
      cases l with
      | nil => simp [chars_begin] at h
      | cons b l =>
        simp only [chars_begin] at h
        split at h
        · simpa using ih l h
        · exact absurd h (by simp)
  rw [chars_begin_of_le p l r hle]; exact h

theorem chars_begin_append_false (p l r : List Char) (hle : p.length ≤ l.length)
    (h : chars_begin p l = false) : chars_begin p (l ++ r) = false := by
  rw [chars_begin_of_le p l r hle]; exact h

theorem chars_begin_head_ne {a b : Char} (p l : List Char) (h : a ≠ b) :
    chars_begin (a :: p) (b :: l) = false := by
  simp [chars_begin, h]

/-! ## Claim theorems -/

/-- Claim C1, counterexample: when the file cannot be opened (modelled by the
`Except.error` outcome of `pd.ExcelFile`), `parse_excel_to_plan` does NOT
abort with a distinct error condition — it returns normally, with the
diagnostic folded into the same `errors` list that collects the recoverable
warnings, and an empty entry list. -/
theorem open_failure_folded_into_warnings_cex :
    parse_excel_to_plan (.error "boom") = ([], ["Błąd otwarcia pliku: boom"]) := by
  decide

/-- Claim C1, amended: if the input file cannot be opened,
`parse_excel_to_plan` catches the failure and returns normally with an empty
entry list and the original diagnostic message (prefixed with
`"Błąd otwarcia pliku: "`) appended to the single returned warning list; no
distinct fatal error condition is surfaced. -/
theorem open_failure_returns_normally (msg : String) :
    parse_excel_to_plan (.error msg) = ([], ["Błąd otwarcia pliku: " ++ msg]) := rfl

/-- Claim C2, counterexample: with the weekday-header row spelled
`["", "Mon", "Tue", "Wed", "Thu", "Fri"]` (as the claim literally states),
the parser recognizes no weekday columns — `WEEKDAYS` holds the Polish
names — so the sheet yields 0 entries, not 3. -/
theorem english_weekday_header_yields_nothing_cex :
    (parse_excel_to_plan (.ok [("S", .ok
      [["1AT - 1.09.2025"],
       ["", "Mon", "Tue", "Wed", "Thu", "Fri"],
       ["7:10-7:55", "Math", "Physics", "", "Chemistry", ""]])])).1 = [] ∧
    ¬ ((parse_excel_to_plan (.ok [("S", .ok
      [["1AT - 1.09.2025"],
       ["", "Mon", "Tue", "Wed", "Thu", "Fri"],
       ["7:10-7:55", "Math", "Physics", "", "Chemistry", ""]])])).1.length = 3) := by
  decide

/-- Claim C2, amended: same scenario with the weekday-header cells in the
source-locale (Polish) weekday names: the sheet yields exactly 3 entries for
class `1AT`, times `07:10:00`/`07:55:00`, on the first, second and fourth
weekday (Poniedziałek/Wtorek/Czwartek), and no entry for the empty third and
fifth columns; no warnings. -/
theorem polish_weekday_header_scenario :
    parse_excel_to_plan (.ok [("S", .ok
      [["1AT - 1.09.2025"],
       ["", "Poniedziałek", "Wtorek", "Środa", "Czwartek", "Piątek"],
       ["7:10-7:55", "Math", "Physics", "", "Chemistry", ""]])]) =
    ([{ klasa := "1AT", dzien := "Poniedziałek", start := "07:10:00", end_ := "07:55:00",
        przedmiot := "Math", sheet := "S", row := 3, col := 2 },
      { klasa := "1AT", dzien := "Wtorek", start := "07:10:00", end_ := "07:55:00",
        przedmiot := "Physics", sheet := "S", row := 3, col := 3 },
      { klasa := "1AT", dzien := "Czwartek", start := "07:10:00", end_ := "07:55:00",
        przedmiot := "Chemistry", sheet := "S", row := 3, col := 5 }], []) := by
  decide

/-- Claim C3, counterexample: the emitted table-creation statement's column
set is NOT `{id, class, weekday, start_time, end_time, subject, sheet,
sheet_row, sheet_col}`: the source writes the Polish column names (`klasa`,
not `class`), as the creation statement emitted for a concrete 1-entry plan
shows. -/
theorem create_columns_not_english_cex :
    "class" ∉ create_columns ∧ "klasa" ∈ create_columns ∧
    "start_time" ∉ create_columns ∧
    "CREATE TABLE IF NOT EXISTS plan (" ∈ write_sql_lines [entry0] "2025-01-01T00:00:00" ∧
    "  klasa VARCHAR(50)," ∈ write_sql_lines [entry0] "2025-01-01T00:00:00" := by
  decide

/-- Claim C7: `escape_sql` is not idempotent — on `"'"` the first application
yields `"''"` and the second `"''''"`. -/
theorem escape_sql_not_idempotent :
    ∃ s : String, escape_sql (escape_sql s) ≠ escape_sql s :=
  ⟨"'", by decide⟩

theorem chars_begin_append_both : ∀ (x p l : List Char),
    chars_begin (x ++ p) (x ++ l) = chars_begin p l
  | [], _, _ => rfl
  | a :: x, p, l => by simp [chars_begin, chars_begin_append_both x p l]

theorem str_ext {a b : String} (h : a.data = b.data) : a = b := by
  cases a; cases b; exact congrArg String.mk h

theorem str_append_assoc (a b c : String) : (a ++ b) ++ c = a ++ (b ++ c) := by
  apply str_ext
  simp only [str_data_append, List.append_assoc]

theorem str_begins_append_both (x p l : String) :
    str_begins (x ++ p) (x ++ l) = str_begins p l := by
  unfold str_begins
  rw [str_data_append, str_data_append, chars_begin_append_both]

theorem insert_stmt_begins_insert (i : Nat) (r : Entry) :
    str_begins "INSERT INTO" (insert_stmt i r) = true := by
  unfold str_begins insert_stmt
  simp only [str_data_append, List.append_assoc]
  exact chars_begin_append_true _ _ _ (by decide)

theorem insert_stmt_not_create (i : Nat) (r : Entry) :
    str_begins "CREATE TABLE IF NOT EXISTS" (insert_stmt i r) = false := by
  unfold str_begins insert_stmt
  simp only [str_data_append, List.append_assoc]
  exact chars_begin_append_false _ _ _ (by decide) (by decide)

theorem comment_not_create (ts : String) :
    str_begins "CREATE TABLE IF NOT EXISTS" ("-- Wygenerowano: " ++ ts) = false := by
  unfold str_begins
  rw [str_data_append]
  have h1 : ("CREATE TABLE IF NOT EXISTS" : String).data
      = 'C' :: ("REATE TABLE IF NOT EXISTS" : String).data := by decide
  have h2 : ("-- Wygenerowano: " : String).data
      = '-' :: ("- Wygenerowano: " : String).data := by decide
  rw [h1, h2, List.cons_append]
  exact chars_begin_head_ne _ _ (by decide)

theorem comment_not_insert (ts : String) :
    str_begins "INSERT INTO" ("-- Wygenerowano: " ++ ts) = false := by
  unfold str_begins
  rw [str_data_append]
  have h1 : ("INSERT INTO" : String).data = 'I' :: ("NSERT INTO" : String).data := by decide
  have h2 : ("-- Wygenerowano: " : String).data
      = '-' :: ("- Wygenerowano: " : String).data := by decide
  rw [h1, h2, List.cons_append]
  exact chars_begin_head_ne _ _ (by decide)

theorem countP_create_lines (plan : List Entry) (ts : String) :
    (write_sql_lines plan ts).countP (fun l => str_begins "CREATE TABLE IF NOT EXISTS" l) = 1 := by
  unfold write_sql_lines
  rw [List.countP_append, List.countP_cons]
  have hins : (insert_stmts plan).countP
      (fun l => str_begins "CREATE TABLE IF NOT EXISTS" l) = 0 := by
    rw [List.countP_eq_zero]
    intro a ha
    obtain ⟨p, _, rfl⟩ := List.mem_map.1 ha
    simp [insert_stmt_not_create]
  have hcrt : create_stmt_lines.countP
      (fun l => str_begins "CREATE TABLE IF NOT EXISTS" l) = 1 := by decide
  simp [hins, hcrt, comment_not_create ts]

theorem countP_insert_lines (plan : List Entry) (ts : String) :
    (write_sql_lines plan ts).countP (fun l => str_begins "INSERT INTO" l) = plan.length := by
  unfold write_sql_lines
  rw [List.countP_append, List.countP_cons]
  have hins : (insert_stmts plan).countP (fun l => str_begins "INSERT INTO" l)
      = (insert_stmts plan).length := by
    rw [List.countP_eq_length]
    intro a ha
    obtain ⟨p, _, rfl⟩ := List.mem_map.1 ha
    simp [insert_stmt_begins_insert]
  have hlen : (insert_stmts plan).length = plan.length := by
    unfold insert_stmts
    rw [List.length_map, List.enum_length]
  have hcrt : create_stmt_lines.countP (fun l => str_begins "INSERT INTO" l) = 0 := by decide
  simp [hins, hlen, hcrt, comment_not_insert ts]

/-- Claim C3, amended: for every non-empty entry list, `write_sql` emits
exactly one table-creation statement, whose column set is the source's
(Polish-named) fixed set `{id, klasa, dzien, godzina_start, godzina_koniec,
przedmiot, sheet, sheet_row, sheet_col}` (the claim's English names `class`,
`weekday`, `start_time`, `end_time`, `subject` rendered as in the source),
followed by one insert statement per entry. -/
theorem write_sql_one_create_polish_columns (plan : List Entry) (ts : String)
    (_h : plan ≠ []) :
    write_sql_lines plan ts =
      ("-- Wygenerowano: " ++ ts) :: create_stmt_lines ++ insert_stmts plan ∧
    (write_sql_lines plan ts).countP (fun l => str_begins "CREATE TABLE IF NOT EXISTS" l) = 1 ∧
    create_columns = ["id", "klasa", "dzien", "godzina_start", "godzina_koniec",
                      "przedmiot", "sheet", "sheet_row", "sheet_col"] ∧
    (insert_stmts plan).length = plan.length := by
  refine ⟨rfl, countP_create_lines plan ts, by decide, ?_⟩
  unfold insert_stmts
  rw [List.length_map, List.enum_length]

/-- Claim C3, witness. -/
theorem write_sql_one_create_polish_columns_witness :
    (write_sql_lines [entry0] "T").countP
      (fun l => str_begins "CREATE TABLE IF NOT EXISTS" l) = 1 :=
  (write_sql_one_create_polish_columns [entry0] "T" (by decide)).2.1

/-- Claim C8: the `id` values of the emitted insert statements form a 1-based
sequential counter over the entries in discovery order — the k-th entry's
statement is `insert_stmt (k+1)` of that entry, whose text begins with the
column list and the literal id `k+1` — independent of all field values; a
2-entry list yields the statements with ids 1 and 2, and the script has
exactly one `CREATE TABLE IF NOT EXISTS` statement and one `INSERT` per
entry. -/
theorem write_sql_id_counter (plan : List Entry) (ts : String) :
    (∀ k e, plan.get? k = some e →
      (insert_stmts plan).get? k = some (insert_stmt (k + 1) e)) ∧
    (∀ i r, str_begins
      ("INSERT INTO plan (id, klasa, dzien, godzina_start, godzina_koniec, przedmiot, sheet, sheet_row, sheet_col) VALUES ("
        ++ toString i ++ ",") (insert_stmt i r) = true) ∧
    (∀ e1 e2 : Entry, insert_stmts [e1, e2] = [insert_stmt 1 e1, insert_stmt 2 e2]) ∧
    (write_sql_lines plan ts).countP (fun l => str_begins "CREATE TABLE IF NOT EXISTS" l) = 1 ∧
    (write_sql_lines plan ts).countP (fun l => str_begins "INSERT INTO" l) = plan.length := by
  refine ⟨?_, ?_, fun e1 e2 => rfl, countP_create_lines plan ts, countP_insert_lines plan ts⟩
  · intro k e hk
    unfold insert_stmts
    rw [List.get?_eq_getElem?] at hk ⊢
    rw [List.getElem?_map, List.getElem?_enum, hk]
    rfl
  · intro i r
    have hstmt : insert_stmt i r =
        "INSERT INTO plan (id, klasa, dzien, godzina_start, godzina_koniec, przedmiot, sheet, sheet_row, sheet_col) VALUES ("
          ++ (toString i ++ ("," ++ (" '" ++ escape_sql r.klasa ++ "', '" ++ escape_sql r.dzien
          ++ "', '" ++ r.start ++ "', '" ++ r.end_ ++ "', '" ++ r.przedmiot ++ "', '"
          ++ escape_sql r.sheet ++ "', " ++ toString r.row ++ ", " ++ toString r.col ++ ");"))) := by
      apply str_ext
      simp [insert_stmt, str_data_append, List.append_assoc]
    rw [hstmt, str_append_assoc, str_begins_append_both, str_begins_append_both]
    unfold str_begins
    rw [str_data_append]
    exact chars_begin_append_true _ _ _ (by decide)

/-- Claim C8, witness. -/
theorem write_sql_id_counter_witness :
    (insert_stmts [entry0, entry1]).get? 1 = some (insert_stmt 2 entry1) :=
  (write_sql_id_counter [entry0, entry1] "T").1 1 entry1 (by decide)

theorem digitVal_lt_ten (c : Char) (h : pyIsDigit c = true) : digitVal c < 10 := by
  simp only [pyIsDigit, Bool.and_eq_true, decide_eq_true_eq] at h
  unfold digitVal
  have h0 : '0'.toNat = 48 := rfl
  rw [h0]
  omega

theorem timePat_some : ∀ (l : List Char) (h : Nat) (mm : String),
    timePat l = some (h, mm) → h < 100 ∧ mm.data.length = 2 := by
  intro l h mm hp
  unfold timePat at hp
  split at hp
  · split at hp
    · rename_i a m1 m2 hcond
      simp only [Bool.and_eq_true] at hcond
      obtain ⟨⟨ha, _⟩, _⟩ := hcond
      simp only [Option.some.injEq, Prod.mk.injEq] at hp
      obtain ⟨hh, hmm⟩ := hp
      subst hh
      subst hmm
      exact ⟨by have := digitVal_lt_ten a ha; omega, rfl⟩
    · exact absurd hp (by simp)
  · split at hp
    · rename_i a b m1 m2 hcond
      simp only [Bool.and_eq_true] at hcond
      obtain ⟨⟨⟨ha, hb⟩, _⟩, _⟩ := hcond
      simp only [Option.some.injEq, Prod.mk.injEq] at hp
      obtain ⟨hh, hmm⟩ := hp
      subst hh
      subst hmm
      refine ⟨?_, rfl⟩
      have h1 := digitVal_lt_ten a ha
      have h2 := digitVal_lt_ten b hb
      omega
    · exact absurd hp (by simp)
  · exact absurd hp (by simp)

set_option maxRecDepth 4000 in
theorem pad2_length_of_lt (h : Nat) (hh : h < 100) : (pad2 h).length = 2 := by
  have hall : ∀ x : Fin 100, (pad2 x.val).length = 2 := by decide
  exact hall ⟨h, hh⟩

set_option maxRecDepth 8000 in
theorem pad2_inj_of_lt (a b : Nat) (ha : a < 100) (hb : b < 100)
    (he : pad2 a = pad2 b) : a = b := by
  have hall : ∀ x y : Fin 100, pad2 x.val = pad2 y.val → x = y := by decide
  have := hall ⟨a, ha⟩ ⟨b, hb⟩ he
  simpa using congrArg Fin.val this

theorem normalize_time_eq (t : String) (h : Nat) (mm : String)
    (hp : timePat (trimWs t.data) = some (h, mm)) :
    normalize_time t = some (pad2 h ++ ":" ++ mm ++ ":00") := by
  have ht : t ≠ "" := by
    intro he
    have hnone : timePat (trimWs ("" : String).data) = none := rfl
    rw [he, hnone] at hp
    cases hp
  unfold normalize_time
  rw [if_neg ht, hp]

/-- Claim C5: on every input whose stripped text matches `^(\d{1,2}):(\d{2})$`
(valid `H:MM`/`HH:MM`, possibly whitespace-padded), `normalize_time` returns
the 8-character `HH:MM:00` string — hour zero-padded to two digits, minute
kept verbatim, seconds fixed `00` — and is injective on the (hour, minute)
pair; on every other input it returns `none`. -/
theorem normalize_time_spec :
    (∀ t h mm, timePat (trimWs t.data) = some (h, mm) →
      normalize_time t = some (pad2 h ++ ":" ++ mm ++ ":00") ∧
      (pad2 h ++ ":" ++ mm ++ ":00").length = 8) ∧
    (∀ t1 t2 h1 mm1 h2 mm2,
      timePat (trimWs t1.data) = some (h1, mm1) →
      timePat (trimWs t2.data) = some (h2, mm2) →
      normalize_time t1 = normalize_time t2 → h1 = h2 ∧ mm1 = mm2) ∧
    (∀ t, timePat (trimWs t.data) = none → normalize_time t = none) := by
  refine ⟨?_, ?_, ?_⟩
  · intro t h mm hp
    obtain ⟨hlt, hlen⟩ := timePat_some _ _ _ hp
    refine ⟨normalize_time_eq t h mm hp, ?_⟩
    have hp2 : (pad2 h).length = 2 := pad2_length_of_lt h hlt
    have hmm : mm.length = 2 := hlen
    simp [String.length_append, hp2, hmm]
    decide
  · intro t1 t2 h1 mm1 h2 mm2 hp1 hp2 heq
    obtain ⟨hlt1, hlen1⟩ := timePat_some _ _ _ hp1
    obtain ⟨hlt2, hlen2⟩ := timePat_some _ _ _ hp2
    rw [normalize_time_eq t1 h1 mm1 hp1, normalize_time_eq t2 h2 mm2 hp2] at heq
    have hs : pad2 h1 ++ ":" ++ mm1 ++ ":00" = pad2 h2 ++ ":" ++ mm2 ++ ":00" :=
      Option.some.inj heq
    have hd : (pad2 h1).data ++ (':' :: (mm1.data ++ [':', '0', '0']))
        = (pad2 h2).data ++ (':' :: (mm2.data ++ [':', '0', '0'])) := by
      have := congrArg String.data hs
      simpa [str_data_append, List.append_assoc] using this
    have hlp : (pad2 h1).data.length = (pad2 h2).data.length := by
      have e1 : (pad2 h1).data.length = 2 := pad2_length_of_lt h1 hlt1
      have e2 : (pad2 h2).data.length = 2 := pad2_length_of_lt h2 hlt2
      rw [e1, e2]
    obtain ⟨hpad, hrest⟩ := List.append_inj hd hlp
    constructor
    · exact pad2_inj_of_lt h1 h2 hlt1 hlt2 (str_ext hpad)
    · injection hrest with _ hrest2
      obtain ⟨hm, _⟩ := List.append_inj hrest2 (by rw [hlen1, hlen2])
      exact str_ext hm
  · intro t hp
    unfold normalize_time
    split
    · rfl
    · rw [hp]

/-- Claim C5, witness. -/
theorem normalize_time_spec_witness :
    normalize_time " 7:10 " = some (pad2 7 ++ ":" ++ "10" ++ ":00") ∧
    (pad2 7 ++ ":" ++ "10" ++ ":00").length = 8 :=
  normalize_time_spec.1 " 7:10 " 7 "10" (by decide)

set_option maxRecDepth 10000 in
/-- Claim C10: `normalize_time` performs no range validation — every input
whose (stripped) text matches the syntactic pattern is accepted, `"99:99"`
yields `"99:99:00"`, and such values flow unchecked into the emitted SQL
`TIME` literals, as the end-to-end run and its insert statement show. -/
theorem normalize_time_no_range_validation :
    (∀ t p, timePat (trimWs t.data) = some p → (normalize_time t).isSome = true) ∧
    normalize_time "99:99" = some "99:99:00" ∧
    (parse_excel_to_plan (.ok [("S", .ok
      [["K - 1.09.2025"],
       ["", "poniedziałek", "wtorek", "środa"],
       ["99:99 - 88:88", "X"]])])).1 =
      [{ klasa := "K", dzien := "Poniedziałek", start := "99:99:00", end_ := "88:88:00",
         przedmiot := "X", sheet := "S", row := 3, col := 2 }] ∧
    insert_stmt 1 { klasa := "K", dzien := "Poniedziałek", start := "99:99:00",
                    end_ := "88:88:00", przedmiot := "X", sheet := "S", row := 3, col := 2 } =
      "INSERT INTO plan (id, klasa, dzien, godzina_start, godzina_koniec, przedmiot, sheet, sheet_row, sheet_col) VALUES (1, 'K', 'Poniedziałek', '99:99:00', '88:88:00', 'X', 'S', 3, 2);" := by
  refine ⟨?_, by decide, by decide, by decide⟩
  intro t p hp
  obtain ⟨h, mm⟩ := p
  rw [normalize_time_eq t h mm hp]
  rfl

/-- Claim C10, witness. -/
theorem normalize_time_no_range_validation_witness :
    (normalize_time "99:99").isSome = true :=
  normalize_time_no_range_validation.1 "99:99" (99, "99") (by decide)

theorem fwc_step_isSome (p : Nat × String) :
    (fwc_step p).isSome = (recognizes p.2).isSome := by
  unfold fwc_step recognizes
  by_cases h : p.2 = ""
  · rw [if_pos h, if_pos h]
    rfl
  · rw [if_neg h, if_neg h]
    cases matchWeekday (pyLowerStr (pyStrip p.2)) <;> rfl

theorem raw_length_aux : ∀ (n : Nat) (row : List String),
    ((List.enumFrom n row).filterMap fwc_step).length
      = row.countP (fun c => (recognizes c).isSome) := by
  intro n row
  induction row generalizing n with
  | nil => rfl
  | cons c rest ih =>
    simp only [List.enumFrom, List.filterMap_cons, List.countP_cons]
    cases hf : fwc_step (n, c) with
    | none =>
      have hr : (recognizes c).isSome = false := by
        have := fwc_step_isSome (n, c)
        rw [hf] at this
        exact this.symm
      simp [hr, ih (n + 1)]
    | some q =>
      have hr : (recognizes c).isSome = true := by
        have := fwc_step_isSome (n, c)
        rw [hf] at this
        exact this.symm
      simp [hr, ih (n + 1)]

theorem find_weekday_raw_length (row : List String) :
    (find_weekday_raw row).length = recognizedCount row := by
  unfold find_weekday_raw recognizedCount List.enum
  exact raw_length_aux 0 row

theorem find_weekday_raw_mem (row : List String) (q : Nat × String)
    (hq : q ∈ find_weekday_raw row) :
    ∃ cell, row.get? q.1 = some cell ∧ recognizes cell = some q.2 := by
  unfold find_weekday_raw at hq
  obtain ⟨p, hp, hstep⟩ := List.mem_filterMap.1 hq
  have hrow : row.get? p.1 = some p.2 := by
    rw [List.get?_eq_getElem?]
    exact List.mem_enum_iff_getElem?.1 hp
  unfold fwc_step at hstep
  split at hstep
  · cases hstep
  · rename_i hne
    obtain ⟨w, hw, hq2⟩ := Option.map_eq_some'.1 hstep
    cases hq2
    refine ⟨p.2, hrow, ?_⟩
    unfold recognizes
    rw [if_neg hne]
    exact hw

theorem matchWeekday_mem (s w : String) (h : matchWeekday s = some w) :
    ∃ wd ∈ WEEKDAYS, w = pyCapitalize wd := by
  unfold matchWeekday at h
  obtain ⟨wd, hwd, hf⟩ := List.exists_of_findSome?_eq_some h
  split at hf
  · cases hf
    exact ⟨wd, hwd, rfl⟩
  · cases hf

/-- Claim C4, counterexample: a row of three cells all equal to
`"poniedziałek"` is accepted as a weekday header (three distinct columns,
only ONE distinct weekday), refuting the claim's requirement that at least 3
distinct columns match distinct weekdays. -/
theorem find_weekday_columns_distinct_cex :
    find_weekday_columns ["poniedziałek", "poniedziałek", "poniedziałek"] =
      [(0, "Poniedziałek"), (1, "Poniedziałek"), (2, "Poniedziałek")] ∧
    find_weekday_columns ["poniedziałek", "poniedziałek", "poniedziałek"] ≠ [] ∧
    ((find_weekday_columns ["poniedziałek", "poniedziałek", "poniedziałek"]).map
      Prod.snd).dedup = ["Poniedziałek"] := by
  decide

/-- Claim C4, amended: `find_weekday_columns` returns the empty mapping for
every row in which fewer than 3 cells are recognized as weekdays
(recognition = exact match or 3-character-prefix match against the fixed
weekday set after trim and lowercase); a row qualifies iff at least 3 cells
in (necessarily distinct) columns are recognized — the matched weekdays need
NOT be distinct — and for a qualifying row the mapping's size equals the
number of recognized cells, mapping each recognized column index to the
capitalized weekday name. -/
theorem find_weekday_columns_spec (row : List String) :
    (recognizedCount row < 3 → find_weekday_columns row = []) ∧
    (3 ≤ recognizedCount row →
      (find_weekday_columns row).length = recognizedCount row ∧
      ∀ q ∈ find_weekday_columns row,
        ∃ cell, row.get? q.1 = some cell ∧ recognizes cell = some q.2 ∧
          ∃ wd ∈ WEEKDAYS, q.2 = pyCapitalize wd) := by
  constructor
  · intro hlt
    unfold find_weekday_columns
    rw [if_neg]
    rw [find_weekday_raw_length]
    omega
  · intro hge
    have hfc : find_weekday_columns row = find_weekday_raw row := by
      unfold find_weekday_columns
      rw [if_pos]
      rw [find_weekday_raw_length]
      omega
    refine ⟨by rw [hfc, find_weekday_raw_length], ?_⟩
    intro q hq
    rw [hfc] at hq
    obtain ⟨cell, h1, h2⟩ := find_weekday_raw_mem row q hq
    refine ⟨cell, h1, h2, ?_⟩
    unfold recognizes at h2
    split at h2
    · cases h2
    · exact matchWeekday_mem _ _ h2

/-- Claim C4, witness. -/
theorem find_weekday_columns_spec_witness :
    (find_weekday_columns ["pon", "wto", "śro"]).length
      = recognizedCount ["pon", "wto", "śro"] :=
  ((find_weekday_columns_spec ["pon", "wto", "śro"]).2 (by decide)).1

theorem bool_not_true {b : Bool} (h : ¬ b = true) : b = false := by
  cases b
  · rfl
  · exact absurd rfl h

theorem collapseWs_mem : ∀ (l : List Char) (c : Char), c ∈ collapseWs l →
    c = ' ' ∨ (pyIsSpace c = false ∧ c ∈ l) := by
  intro l
  induction l with
  | nil => intro c hc; cases hc
  | cons a rest ih =>
    intro c hc
    simp only [collapseWs] at hc
    by_cases ha : pyIsSpace a = true
    · rw [if_pos ha] at hc
      by_cases hh : headSpace (collapseWs rest) = true
      · rw [if_pos hh] at hc
        rcases ih c hc with h | ⟨h1, h2⟩
        · exact Or.inl h
        · exact Or.inr ⟨h1, List.mem_cons_of_mem a h2⟩
      · rw [if_neg hh] at hc
        rcases List.mem_cons.1 hc with h | h
        · exact Or.inl h
        · rcases ih c h with h' | ⟨h1, h2⟩
          · exact Or.inl h'
          · exact Or.inr ⟨h1, List.mem_cons_of_mem a h2⟩
    · rw [if_neg ha] at hc
      rcases List.mem_cons.1 hc with h | h
      · exact Or.inr ⟨by rw [h]; exact bool_not_true ha, by rw [h]; exact List.mem_cons_self a rest⟩
      · rcases ih c h with h' | ⟨h1, h2⟩
        · exact Or.inl h'
        · exact Or.inr ⟨h1, List.mem_cons_of_mem a h2⟩

theorem noTwoWs_cons (c : Char) (X : List Char) :
    noTwoWs (c :: X) = true ↔
      (noTwoWs X = true ∧ (pyIsSpace c = false ∨ headSpace X = false)) := by
  cases X with
  | nil => simp [noTwoWs, headSpace]
  | cons d t =>
    simp only [noTwoWs, headSpace, Bool.and_eq_true, Bool.not_eq_true']
    constructor
    · rintro ⟨h1, h2⟩
      refine ⟨h2, ?_⟩
      cases hc : pyIsSpace c
      · exact Or.inl rfl
      · cases hd : pyIsSpace d
        · exact Or.inr rfl
        · rw [hc, hd] at h1; cases h1
    · rintro ⟨h2, h1⟩
      refine ⟨?_, h2⟩
      rcases h1 with h | h
      · rw [h]; rfl
      · rw [h]; cases pyIsSpace c <;> rfl

theorem collapseWs_noTwoWs : ∀ l : List Char, noTwoWs (collapseWs l) = true := by
  intro l
  induction l with
  | nil => rfl
  | cons a rest ih =>
    simp only [collapseWs]
    by_cases ha : pyIsSpace a = true
    · rw [if_pos ha]
      by_cases hh : headSpace (collapseWs rest) = true
      · rw [if_pos hh]; exact ih
      · rw [if_neg hh]
        rw [noTwoWs_cons]
        exact ⟨ih, Or.inr (bool_not_true hh)⟩
    · rw [if_neg ha]
      rw [noTwoWs_cons]
      exact ⟨ih, Or.inl (bool_not_true ha)⟩

theorem doubleQuotes_mem : ∀ (l : List Char) (c : Char), c ∈ doubleQuotes l →
    c = '\'' ∨ c ∈ l := by
  intro l
  induction l with
  | nil => intro c hc; cases hc
  | cons a rest ih =>
    intro c hc
    simp only [doubleQuotes] at hc
    by_cases ha : a = '\''
    · rw [if_pos ha] at hc
      rcases List.mem_cons.1 hc with h | h
      · exact Or.inl h
      · rcases List.mem_cons.1 h with h' | h'
        · exact Or.inl h'
        · rcases ih c h' with h2 | h2
          · exact Or.inl h2
          · exact Or.inr (List.mem_cons_of_mem a h2)
    · rw [if_neg ha] at hc
      rcases List.mem_cons.1 hc with h | h
      · exact Or.inr (by rw [h]; exact List.mem_cons_self a rest)
      · rcases ih c h with h2 | h2
        · exact Or.inl h2
        · exact Or.inr (List.mem_cons_of_mem a h2)

theorem doubleQuotes_headSpace : ∀ l : List Char,
    headSpace (doubleQuotes l) = headSpace l := by
  intro l
  cases l with
  | nil => rfl
  | cons a rest =>
    simp only [doubleQuotes]
    by_cases ha : a = '\''
    · rw [if_pos ha, ha]; rfl
    · rw [if_neg ha]; rfl

theorem doubleQuotes_noTwoWs : ∀ l : List Char, noTwoWs l = true →
    noTwoWs (doubleQuotes l) = true := by
  intro l
  induction l with
  | nil => intro _; rfl
  | cons a rest ih =>
    intro h
    obtain ⟨h1, h2⟩ := (noTwoWs_cons a rest).1 h
    simp only [doubleQuotes]
    by_cases ha : a = '\''
    · rw [if_pos ha]
      rw [noTwoWs_cons, noTwoWs_cons]
      exact ⟨⟨ih h1, Or.inl rfl⟩, Or.inl rfl⟩
    · rw [if_neg ha]
      rw [noTwoWs_cons]
      refine ⟨ih h1, ?_⟩
      rcases h2 with h' | h'
      · exact Or.inl h'
      · exact Or.inr (by rw [doubleQuotes_headSpace]; exact h')

theorem doubleQuotes_quotesOk : ∀ l : List Char,
    quotesOk (doubleQuotes l) = true := by
  intro l
  induction l with
  | nil => rfl
  | cons a rest ih =>
    simp only [doubleQuotes]
    by_cases ha : a = '\''
    · rw [if_pos ha]
      rw [quotesOk.eq_def]
      simp only [if_pos rfl]
      exact ih
    · rw [if_neg ha]
      rw [quotesOk.eq_def]
      simp only [if_neg ha]
      exact ih

theorem doubleQuotes_count : ∀ l : List Char,
    (doubleQuotes l).count '\'' = 2 * l.count '\'' := by
  intro l
  induction l with
  | nil => rfl
  | cons a rest ih =>
    simp only [doubleQuotes]
    by_cases ha : a = '\''
    · subst ha
      rw [if_pos rfl, List.count_cons, List.count_cons, List.count_cons, ih,
        if_pos (show (('\'' : Char) == '\'') = true by decide)]
      omega
    · rw [if_neg ha, List.count_cons, List.count_cons, ih,
        if_neg (show ¬ ((a == '\'') = true) by simpa using ha)]
      omega

theorem count_dropWhile_nonspace (c : Char) (hc : pyIsSpace c = false) :
    ∀ l : List Char, (l.dropWhile pyIsSpace).count c = l.count c := by
  intro l
  induction l with
  | nil => rfl
  | cons a rest ih =>
    by_cases ha : pyIsSpace a = true
    · rw [List.dropWhile_cons_of_pos ha, ih, List.count_cons]
      rw [if_neg ?hne]
      case hne =>
        intro he
        rw [show a = c from by simpa using he, hc] at ha
        cases ha
      try omega
    · rw [List.dropWhile_cons_of_neg (by simpa using ha)]

theorem count_trimWs_nonspace (c : Char) (hc : pyIsSpace c = false) (l : List Char) :
    (trimWs l).count c = l.count c := by
  unfold trimWs
  rw [List.count_reverse, count_dropWhile_nonspace c hc, List.count_reverse,
    count_dropWhile_nonspace c hc]

theorem count_collapseWs_nonspace (c : Char) (hc : pyIsSpace c = false) :
    ∀ l : List Char, (collapseWs l).count c = l.count c := by
  intro l
  induction l with
  | nil => rfl
  | cons a rest ih =>
    have hac : ∀ b : Char, pyIsSpace b = true → ¬ (b == c) = true := by
      intro b hb he
      rw [show b = c from by simpa using he, hc] at hb
      cases hb
    simp only [collapseWs]
    by_cases ha : pyIsSpace a = true
    · rw [if_pos ha, List.count_cons, if_neg (hac a ha)]
      by_cases hh : headSpace (collapseWs rest) = true
      · rw [if_pos hh, ih]
        try omega
      · rw [if_neg hh, List.count_cons, if_neg (hac ' ' rfl), ih]
        try omega
    · rw [if_neg ha, List.count_cons, List.count_cons, ih]

theorem count_map_quote : ∀ l : List Char,
    (l.map (fun c => if c = '\n' || c = '\r' then ' ' else c)).count '\''
      = l.count '\'' := by
  intro l
  induction l with
  | nil => rfl
  | cons a rest ih =>
    simp only [List.map_cons, List.count_cons, ih]
    by_cases ha : (a = '\n' || a = '\r') = true
    · rw [if_pos ha]
      rw [if_neg (by decide : ¬ ((' ' : Char) == '\'') = true)]
      rw [if_neg ?hne]
      case hne =>
        intro he
        have : a = '\'' := by simpa using he
        rw [this] at ha
        simp at ha
    · rw [if_neg ha]

/-- Claim C6: for every input string, the output of `escape_sql` contains no
raw newline or carriage-return character and no two consecutive whitespace
characters, and the single quotes of the input appear doubled in the output:
they occur in adjacent pairs, twice as many as in the input. -/
theorem escape_sql_spec (s : String) :
    '\n' ∉ (escape_sql s).data ∧ '\r' ∉ (escape_sql s).data ∧
    noTwoWs (escape_sql s).data = true ∧
    quotesOk (escape_sql s).data = true ∧
    (escape_sql s).data.count '\'' = 2 * s.data.count '\'' := by
  refine ⟨?_, ?_, ?_, ?_, ?_⟩
  · intro hmem
    rcases doubleQuotes_mem _ _ hmem with h | h
    · cases h
    · rcases collapseWs_mem _ _ h with h' | ⟨h1, _⟩
      · cases h'
      · cases h1
  · intro hmem
    rcases doubleQuotes_mem _ _ hmem with h | h
    · cases h
    · rcases collapseWs_mem _ _ h with h' | ⟨h1, _⟩
      · cases h'
      · cases h1
  · exact doubleQuotes_noTwoWs _ (collapseWs_noTwoWs _)
  · exact doubleQuotes_quotesOk _
  · show (doubleQuotes (collapseWs (trimWs _))).count '\'' = _
    rw [doubleQuotes_count, count_collapseWs_nonspace _ (by decide),
      count_trimWs_nonspace _ (by decide), count_map_quote]

theorem find_weekday_columns_eq (row : List String) :
    find_weekday_columns row =
      if 3 ≤ (find_weekday_raw row).length then find_weekday_raw row else [] := rfl

theorem find_weekday_columns_cases (row : List String) :
    find_weekday_columns row = [] ∨ 3 ≤ (find_weekday_columns row).length := by
  rw [find_weekday_columns_eq]
  split
  · rename_i h
    exact Or.inr h
  · exact Or.inl rfl

theorem unknownClass_weekday_cols (n : String) (i : Nat) (st1 : PState) :
    (unknownClass n i st1).weekday_cols = st1.weekday_cols := by
  unfold unknownClass
  split <;> rfl

theorem timeRowEntries_weekday_cols (n : String) (i : Nat) (row : List String)
    (g0 g1 g2 : String) (st2 : PState) :
    (timeRowEntries n i row g0 g1 g2 st2).weekday_cols = st2.weekday_cols := by
  unfold timeRowEntries
  split
  · rfl
  · split <;> rfl

theorem processTime_weekday_cols (n : String) (i : Nat) (row : List String) (st : PState) :
    (processTime n i row st).weekday_cols = st.weekday_cols := by
  unfold processTime
  split
  · rfl
  · rw [timeRowEntries_weekday_cols, unknownClass_weekday_cols]

theorem processRow_weekday_inv (n : String) (i : Nat) (row : List String) (st : PState)
    (h : st.weekday_cols = [] ∨ 3 ≤ st.weekday_cols.length) :
    (processRow n i row st).weekday_cols = [] ∨
      3 ≤ (processRow n i row st).weekday_cols.length := by
  unfold processRow
  have hstep : ∀ st1 : PState,
      (st1.weekday_cols = [] ∨ 3 ≤ st1.weekday_cols.length) →
      ((if st1.weekday_cols.isEmpty then
          (if !(find_weekday_columns row).isEmpty then
            { st1 with weekday_cols := find_weekday_columns row }
          else processTime n i row st1)
        else processTime n i row st1).weekday_cols = [] ∨
        3 ≤ (if st1.weekday_cols.isEmpty then
          (if !(find_weekday_columns row).isEmpty then
            { st1 with weekday_cols := find_weekday_columns row }
          else processTime n i row st1)
        else processTime n i row st1).weekday_cols.length) := by
    intro st1 h1
    by_cases he : st1.weekday_cols.isEmpty = true
    · rw [if_pos he]
      rcases find_weekday_columns_cases row with hc | hc
      · rw [if_neg (by simp [hc])]
        rw [processTime_weekday_cols]
        exact h1
      · by_cases hne : (find_weekday_columns row).isEmpty = true
        · rw [List.isEmpty_iff] at hne
          rw [hne] at hc
          simp at hc
        · rw [if_pos (by simp [bool_not_true hne])]
          exact Or.inr hc
    · rw [if_neg he]
      rw [processTime_weekday_cols]
      exact h1
  cases row.findSome? HEADER_CLASS_match with
  | none => exact hstep st h
  | some cls => exact hstep { st with current_class := some cls, weekday_cols := [] } (Or.inl rfl)

/-- Claim C9: invariant of the per-sheet scan — starting from any state whose
weekday-column mapping is empty or has at least 3 entries (in particular the
sheet-start state, whose mapping is empty), after processing any prefix of a
sheet's rows the mapping is still either empty or of size at least 3: it is
only ever reset to empty (at sheet start or by a class-header match) or
assigned a non-empty result of `find_weekday_columns`, which never has size
1 or 2. -/
theorem weekday_cols_invariant (name : String) (rows : List (List String)) (k i : Nat)
    (st : PState) (h : st.weekday_cols = [] ∨ 3 ≤ st.weekday_cols.length) :
    (processRowsFrom name i (rows.take k) st).weekday_cols = [] ∨
      3 ≤ (processRowsFrom name i (rows.take k) st).weekday_cols.length := by
  induction rows generalizing k i st with
  | nil =>
    rw [List.take_nil]
    exact h
  | cons row rest ih =>
    cases k with
    | zero => exact h
    | succ k' =>
      rw [List.take_succ_cons]
      exact ih k' (i + 1) _ (processRow_weekday_inv name i row st h)

/-- Claim C9, witness. -/
theorem weekday_cols_invariant_witness :
    (processRowsFrom "S" 0 ([["x"], ["pon", "wto", "śro"]].take 2)
      { current_class := none, weekday_cols := [], plan := [], errors := [] }).weekday_cols = [] ∨
    3 ≤ (processRowsFrom "S" 0 ([["x"], ["pon", "wto", "śro"]].take 2)
      { current_class := none, weekday_cols := [], plan := [], errors := [] }).weekday_cols.length :=
  weekday_cols_invariant "S" [["x"], ["pon", "wto", "śro"]] 2 0
    { current_class := none, weekday_cols := [], plan := [], errors := [] } (Or.inl rfl)
